import Mathlib

/-!
Verification of the blog API's post and category controllers
(`server/controllers/postController.js`, `server/controllers/categoryController.js`,
`server/utils/validation.js`, `server/routes/posts.js`) against the repository's
specification. The controllers are shallowly embedded: MongoDB document ids and
ObjectId references are strings, collections are lists, Mongoose `find`/`sort`/
`skip`/`limit` chains become filter/insertionSort/drop/take, and every handler is
a pure function from a database state (plus request data) to a JSON-style
response, paired with the successor state when the handler writes.

`req.query` parsing (`parseInt(req.query.page) || 1`, `sortBy || 'createdAt'`,
`sortOrder === 'asc' ? 1 : -1`) happens before the modelled logic, so handlers
take already-parsed `page`/`limit`/`sortBy`/`sortAsc` parameters; raw optional
query strings (`category`, `author`, `search`, `q`) keep their JavaScript
truthiness semantics (absent or empty string is falsy).

The `try { ... } catch { 500 }` wrapper of each handler is modelled by a
`dbFail` flag: when the data-store layer throws, the handler answers the
generic 500 envelope and the state is unchanged.
-/

namespace Blog

/-- A comment embedded in a post: the commenting user's id and the text.
The comment subdocument lives in the absent `server/models/Post.js`; its two
fields used by the controllers are modelled here. -/
structure BlogComment where
  user : String
  content : String
  deriving Repr, DecidableEq

/-- A post document, with the fields the controllers read and write.
String fields `id`, `author`, `category` stand for ObjectIds; `createdAt`
is a timestamp modelled as a natural number. -/
structure Post where
  id : String
  title : String
  content : String
  excerpt : String
  slug : String
  tags : List String
  author : String
  category : String
  isPublished : Bool
  viewCount : Nat
  createdAt : Nat
  featuredImage : String
  comments : List BlogComment
  deriving Repr, DecidableEq

/-- A category document with the fields the controllers touch. -/
structure Category where
  id : String
  name : String
  description : String
  color : String
  icon : String
  slug : String
  isActive : Bool
  deriving Repr, DecidableEq

/-- The authenticated requester (`req.user`): its id and role string. -/
structure User where
  id : String
  role : String
  deriving Repr, DecidableEq

/-- The document store state: the posts and categories collections. -/
structure DB where
  posts : List Post
  categories : List Category
  deriving Repr, DecidableEq

/-- One entry of the `errors` array built by `handleValidationErrors`
(`{ field, message, value }`). -/
structure FieldError where
  field : String
  message : String
  value : String
  deriving Repr, DecidableEq

/-- The `pagination` object of list responses. `hasNextPage`/`hasPrevPage` are
optional because only `getAllPosts` sends them, and `query` is sent only by
`searchPosts`. -/
structure Pagination where
  currentPage : Nat
  totalPages : Nat
  totalPosts : Nat
  postsPerPage : Nat
  hasNextPage : Option Bool
  hasPrevPage : Option Bool
  query : Option String
  deriving Repr, DecidableEq

/-- A JSON response: HTTP status, the `success` flag, and the optional
`data`, `error`, `errors`, `message`, `pagination` members of the body. -/
structure Resp (α : Type) where
  status : Nat
  success : Bool
  data : Option α
  error : Option String
  errors : Option (List FieldError)
  message : Option String
  pagination : Option Pagination
  deriving Repr, DecidableEq

/-- The uniform 500 envelope sent from every handler's catch block. -/
def serverErr (α : Type) : Resp α :=
  ⟨500, false, none, some "Server error", none, none, none⟩

/-- JavaScript truthiness of an optional query-string value: absent and
empty string are falsy. -/
def truthy : Option String → Bool
  | none => false
  | some s => !(s == "")

/-- `/^[0-9a-fA-F]{24}$/.test(id)`: the id-or-slug dispatch test. -/
def isHexChar (c : Char) : Bool :=
  (('0' ≤ c) && (c ≤ '9')) || (('a' ≤ c) && (c ≤ 'f')) || (('A' ≤ c) && (c ≤ 'F'))

/-- Whether a lookup key looks like a Mongo ObjectId: exactly 24 hex characters. -/
def isObjectId (s : String) : Bool :=
  s.data.length == 24 && s.data.all isHexChar

/-- `Category.findOne(query)` / `Post.findOne(query)` after the ObjectId test:
query by `_id` when the key is 24 hex characters, by `slug` otherwise. -/
def findByIdOrSlug (getId getSlug : α → String) (docs : List α) (key : String) : Option α :=
  if isObjectId key then
    docs.find? (fun d => getId d == key)
  else
    docs.find? (fun d => getSlug d == key)

/-- `Model.findById(id)`. -/
def findById (getId : α → String) (docs : List α) (id : String) : Option α :=
  docs.find? (fun d => getId d == id)

/-- Persisting a `doc.save()` on an existing document: the stored document
with the same `_id` is replaced by the mutated one. -/
def saveDoc (getId : α → String) (docs : List α) (doc : α) : List α :=
  docs.map (fun d => if getId d == getId doc then doc else d)

/-- `Model.findByIdAndDelete(id)`: the document with that `_id` is removed
(`_id` is unique in a collection, so filtering it out is the deletion). -/
def removeById (getId : α → String) (docs : List α) (id : String) : List α :=
  docs.filter (fun d => !(getId d == id))

/-- `skip((page - 1) * limit).limit(limit)`. -/
def paginate (page limit : Nat) (docs : List α) : List α :=
  (docs.drop ((page - 1) * limit)).take limit

/-- `Math.ceil(total / limit)`. -/
def ceilPages (total limit : Nat) : Nat :=
  (total + limit - 1) / limit

/-! ### String ordering and the case-insensitive regex filter

MongoDB sorts string fields lexicographically by code point; `lexLe` is that
order on the character lists of two strings. The `$regex`/`$options: 'i'`
filters are applied to plain search words, where a case-insensitive regex
test is containment of the lowercased pattern in the lowercased text. -/

/-- Lexicographic order on character lists (MongoDB's string sort order). -/
def lexLe : List Char → List Char → Bool
  | [], _ => true
  | _ :: _, [] => false
  | a :: as, b :: bs => if a < b then true else if b < a then false else lexLe as bs

/-- Lexicographic order on strings. -/
def strLe (a b : String) : Bool :=
  lexLe a.data b.data

/-- `needle` is a leading block of `hay`. -/
def leadsList : List Char → List Char → Bool
  | [], _ => true
  | _ :: _, [] => false
  | a :: as, b :: bs => a == b && leadsList as bs

/-- `needle` occurs as a contiguous block of `hay`. -/
def containsSub (needle hay : List Char) : Bool :=
  match hay with
  | [] => needle.isEmpty
  | _ :: t => leadsList needle hay || containsSub needle t

/-- `{ field: { $regex: pat, $options: 'i' } }` on a plain (metacharacter-free)
search word: the lowercased pattern occurs inside the lowercased field. -/
def ciMatch (pat text : String) : Bool :=
  containsSub (pat.data.map Char.toLower) (text.data.map Char.toLower)

/-- The `$or` block shared by `getAllPosts` and `searchPosts`: the search text
matches the title, content or excerpt, or (`tags: { $in: [regex] }`) some tag. -/
def matchesSearch (s : String) (p : Post) : Bool :=
  ciMatch s p.title || ciMatch s p.content || ciMatch s p.excerpt ||
    p.tags.any (fun t => ciMatch s t)

/-! ### Sort relations -/

/-- `.sort({ createdAt: -1 })`: newest first. -/
def createdDesc (p q : Post) : Prop := q.createdAt ≤ p.createdAt

instance : DecidableRel createdDesc := fun p q => Nat.decLe _ _

instance : IsTotal Post createdDesc :=
  ⟨fun p q => Nat.le_total q.createdAt p.createdAt⟩

instance : IsTrans Post createdDesc :=
  ⟨fun _ _ _ hab hbc => Nat.le_trans hbc hab⟩

/-- `.sort({ createdAt: 1 })`: oldest first. -/
def createdAsc (p q : Post) : Prop := p.createdAt ≤ q.createdAt

instance : DecidableRel createdAsc := fun p q => Nat.decLe _ _

/-- `.sort({ title: 1 })`. -/
def titleAsc (p q : Post) : Prop := strLe p.title q.title = true

instance : DecidableRel titleAsc := fun _ _ => instDecidableEqBool _ _

/-- `.sort({ title: -1 })`. -/
def titleDesc (p q : Post) : Prop := strLe q.title p.title = true

instance : DecidableRel titleDesc := fun _ _ => instDecidableEqBool _ _

/-- `.sort({ viewCount: -1 })`. -/
def viewsDesc (p q : Post) : Prop := q.viewCount ≤ p.viewCount

instance : DecidableRel viewsDesc := fun p q => Nat.decLe _ _

/-- `.sort({ viewCount: 1 })`. -/
def viewsAsc (p q : Post) : Prop := p.viewCount ≤ q.viewCount

instance : DecidableRel viewsAsc := fun p q => Nat.decLe _ _

/-- `.sort({ name: 1 })` on categories. -/
def nameAsc (c d : Category) : Prop := strLe c.name d.name = true

instance : DecidableRel nameAsc := fun _ _ => instDecidableEqBool _ _

/-- `.sort({ [sortBy]: sortOrder })` of `getAllPosts` for the post fields the
schema exposes to sorting; any other key names no stored field, for which the
driver's order is unspecified and modelled as the stored order. -/
def sortPosts (sb : String) (asc : Bool) (ps : List Post) : List Post :=
  if sb == "createdAt" then
    if asc then ps.insertionSort createdAsc else ps.insertionSort createdDesc
  else if sb == "title" then
    if asc then ps.insertionSort titleAsc else ps.insertionSort titleDesc
  else if sb == "viewCount" then
    if asc then ps.insertionSort viewsAsc else ps.insertionSort viewsDesc
  else ps

/-! ### Category handlers (`categoryController.js`) -/

/-- `GET /api/categories` — active categories, sorted by name ascending. -/
def getAllCategories (dbFail : Bool) (db : DB) : Resp (List Category) :=
  if dbFail then serverErr _ else
  ⟨200, true, some ((db.categories.filter (fun c => c.isActive)).insertionSort nameAsc),
    none, none, none, none⟩

/-- `GET /api/categories/:id` — lookup by ObjectId or slug. -/
def getCategory (dbFail : Bool) (db : DB) (id : String) : Resp Category :=
  if dbFail then serverErr _ else
  match findByIdOrSlug Category.id Category.slug db.categories id with
  | none => ⟨404, false, none, some "Category not found", none, none, none⟩
  | some c => ⟨200, true, some c, none, none, none, none⟩

/-- Modelled from the spec: the slug derivation of the absent model files
(`server/models/Category.js`, `server/models/Post.js`). The glossary calls a
slug a "URL-friendly unique string derived from a title"; the standard
derivation lowercases and hyphenates. -/
def slugify (t : String) : String :=
  String.mk (t.data.map (fun c => if c == ' ' then '-' else c.toLower))

/-- `POST /api/categories` — create unless the name is taken. `newId` stands
for the ObjectId the store assigns; the slug and the active default come from
the absent schema (see `slugify`; the spec's "active flag" defaults to true). -/
def createCategory (dbFail : Bool) (db : DB) (name description color icon : String)
    (newId : String) : Resp Category × DB :=
  if dbFail then (serverErr _, db) else
  match db.categories.find? (fun c => c.name == name) with
  | some _ =>
    (⟨400, false, none, some "Category with this name already exists", none, none, none⟩, db)
  | none =>
    let c : Category := ⟨newId, name, description, color, icon, slugify name, true⟩
    (⟨201, true, some c, none, none, none, none⟩,
     { db with categories := db.categories ++ [c] })

/-- The `PUT /api/categories/:id` body; absent members are `none`. -/
structure CategoryUpdateBody where
  name : Option String
  description : Option String
  color : Option String
  icon : Option String
  isActive : Option Bool
  deriving Repr, DecidableEq

/-- `if (field) doc.field = field`: assign only a truthy value. -/
def setIfTruthy (o : Option String) (old : String) : String :=
  match o with
  | some s => if s == "" then old else s
  | none => old

/-- `PUT /api/categories/:id` — name-conflict check, then field-wise update
(`name`/`color`/`icon` on truthiness, `description`/`isActive` on presence). -/
def updateCategory (dbFail : Bool) (db : DB) (id : String) (b : CategoryUpdateBody) :
    Resp Category × DB :=
  if dbFail then (serverErr _, db) else
  match findById Category.id db.categories id with
  | none => (⟨404, false, none, some "Category not found", none, none, none⟩, db)
  | some c =>
    let conflict : Bool :=
      match b.name with
      | some n => !(n == "") && !(n == c.name) &&
          (db.categories.find? (fun d => d.name == n)).isSome
      | none => false
    if conflict then
      (⟨400, false, none, some "Category with this name already exists", none, none, none⟩, db)
    else
      let c2 : Category :=
        { c with
          name := setIfTruthy b.name c.name,
          description := b.description.getD c.description,
          color := setIfTruthy b.color c.color,
          icon := setIfTruthy b.icon c.icon,
          isActive := b.isActive.getD c.isActive }
      (⟨200, true, some c2, none, none, none, none⟩,
       { db with categories := saveDoc Category.id db.categories c2 })

/-- `DELETE /api/categories/:id` — refused while posts reference the category. -/
def deleteCategory (dbFail : Bool) (db : DB) (id : String) : Resp Category × DB :=
  if dbFail then (serverErr _, db) else
  match findById Category.id db.categories id with
  | none => (⟨404, false, none, some "Category not found", none, none, none⟩, db)
  | some _ =>
    let postCount := db.posts.countP (fun p => p.category == id)
    if 0 < postCount then
      (⟨400, false, none,
        some ("Cannot delete category. It has " ++ toString postCount ++ " associated posts."),
        none, none, none⟩, db)
    else
      (⟨200, true, none, none, none, some "Category deleted successfully", none⟩,
       { db with categories := removeById Category.id db.categories id })

/-- `GET /api/categories/:id/posts` — the category's published posts, newest
first, paginated. -/
def getPostsByCategory (dbFail : Bool) (db : DB) (id : String) (page limit : Nat) :
    Resp (Category × List Post) :=
  if dbFail then serverErr _ else
  match findByIdOrSlug Category.id Category.slug db.categories id with
  | none => ⟨404, false, none, some "Category not found", none, none, none⟩
  | some c =>
    let matching := db.posts.filter (fun p => p.category == c.id && p.isPublished)
    let posts := paginate page limit (matching.insertionSort createdDesc)
    let total := db.posts.countP (fun p => p.category == c.id && p.isPublished)
    ⟨200, true, some (c, posts), none, none, none,
      some ⟨page, ceilPages total limit, total, limit, none, none, none⟩⟩

/-! ### Post handlers (`postController.js`) -/

/-- The `getAllPosts` query: `isPublished: true` always, and each of
`category`, `author` and the search `$or` only when the parameter is truthy. -/
def listPred (category author search : Option String) (p : Post) : Bool :=
  p.isPublished &&
  (match category with | some s => if s == "" then true else p.category == s | none => true) &&
  (match author with | some s => if s == "" then true else p.author == s | none => true) &&
  (match search with | some s => if s == "" then true else matchesSearch s p | none => true)

/-- `GET /api/posts` — filtered, sorted, paginated list with full pagination
info (`hasNextPage = page < totalPages`, `hasPrevPage = page > 1`). -/
def getAllPosts (dbFail : Bool) (db : DB) (page limit : Nat)
    (category author search : Option String) (sb : String) (asc : Bool) :
    Resp (List Post) :=
  if dbFail then serverErr _ else
  let matching := db.posts.filter (listPred category author search)
  let posts := paginate page limit (sortPosts sb asc matching)
  let total := db.posts.countP (listPred category author search)
  let totalPages := ceilPages total limit
  ⟨200, true, some posts, none, none, none,
    some ⟨page, totalPages, total, limit,
      some (decide (page < totalPages)), some (decide (1 < page)), none⟩⟩

/-- Modelled from the spec: `post.incrementViewCount()` lives in the absent
`server/models/Post.js`. Per the spec, "A post's view count increases by
exactly one per read of a published post": add one and persist. -/
def incrementViewCount (p : Post) : Post :=
  { p with viewCount := p.viewCount + 1 }

/-- `GET /api/posts/:id` — lookup by ObjectId or slug; a published hit has its
view count incremented and persisted before being returned. -/
def getPost (dbFail : Bool) (db : DB) (id : String) : Resp Post × DB :=
  if dbFail then (serverErr _, db) else
  match findByIdOrSlug Post.id Post.slug db.posts id with
  | none => (⟨404, false, none, some "Post not found", none, none, none⟩, db)
  | some p =>
    if p.isPublished then
      let p2 := incrementViewCount p
      (⟨200, true, some p2, none, none, none, none⟩,
       { db with posts := saveDoc Post.id db.posts p2 })
    else
      (⟨200, true, some p, none, none, none, none⟩, db)

/-- The `POST /api/posts` body after destructuring
(`isPublished = false` is the destructuring default). -/
structure CreatePostBody where
  title : String
  content : String
  excerpt : Option String
  category : String
  tags : Option (List String)
  isPublished : Option Bool
  deriving Repr, DecidableEq

/-- `POST /api/posts` — create a post owned by the requester. `newId` and
`now` stand for the ObjectId and timestamp the store assigns; slug derivation
and the zero view-count default come from the absent Post schema. -/
def createPost (dbFail : Bool) (db : DB) (u : User) (b : CreatePostBody)
    (file : Option String) (newId : String) (now : Nat) : Resp Post × DB :=
  if dbFail then (serverErr _, db) else
  let p : Post :=
    { id := newId, title := b.title, content := b.content,
      excerpt := b.excerpt.getD "", slug := slugify b.title,
      tags := b.tags.getD [], author := u.id, category := b.category,
      isPublished := b.isPublished.getD false, viewCount := 0,
      createdAt := now, featuredImage := file.getD "default-post.jpg",
      comments := [] }
  (⟨201, true, some p, none, none, none, none⟩, { db with posts := db.posts ++ [p] })

/-- The `PUT /api/posts/:id` body; absent members are `none`. -/
structure UpdatePostBody where
  title : Option String
  content : Option String
  excerpt : Option String
  category : Option String
  tags : Option (List String)
  isPublished : Option Bool
  deriving Repr, DecidableEq

/-- The field-wise update block of `updatePost`: `title`/`content`/`category`
assign on truthiness, `excerpt`/`isPublished` on presence, `tags` on presence
(in JavaScript every array — `[]` included — is truthy), and `req.file`
replaces the featured image. -/
def applyPostUpdate (b : UpdatePostBody) (file : Option String) (p : Post) : Post :=
  { p with
    title := setIfTruthy b.title p.title,
    content := setIfTruthy b.content p.content,
    excerpt := b.excerpt.getD p.excerpt,
    category := setIfTruthy b.category p.category,
    tags := b.tags.getD p.tags,
    isPublished := b.isPublished.getD p.isPublished,
    featuredImage := match file with | some f => f | none => p.featuredImage }

/-- `PUT /api/posts/:id` — 404 on a missing post, 403 unless the requester is
the author or an admin, otherwise update and save. -/
def updatePost (dbFail : Bool) (db : DB) (u : User) (id : String)
    (b : UpdatePostBody) (file : Option String) : Resp Post × DB :=
  if dbFail then (serverErr _, db) else
  match findById Post.id db.posts id with
  | none => (⟨404, false, none, some "Post not found", none, none, none⟩, db)
  | some p =>
    if !(p.author == u.id) && !(u.role == "admin") then
      (⟨403, false, none, some "Not authorized to update this post", none, none, none⟩, db)
    else
      let p2 := applyPostUpdate b file p
      (⟨200, true, some p2, none, none, none, none⟩,
       { db with posts := saveDoc Post.id db.posts p2 })

/-- `DELETE /api/posts/:id` — 404 on a missing post, 403 unless the requester
is the author or an admin, otherwise delete. -/
def deletePost (dbFail : Bool) (db : DB) (u : User) (id : String) : Resp Post × DB :=
  if dbFail then (serverErr _, db) else
  match findById Post.id db.posts id with
  | none => (⟨404, false, none, some "Post not found", none, none, none⟩, db)
  | some p =>
    if !(p.author == u.id) && !(u.role == "admin") then
      (⟨403, false, none, some "Not authorized to delete this post", none, none, none⟩, db)
    else
      (⟨200, true, none, none, none, some "Post deleted successfully", none⟩,
       { db with posts := removeById Post.id db.posts id })

/-- Modelled from the spec: `post.addComment(user, content)` lives in the
absent `server/models/Post.js`. Per the spec, comments are embedded in the
post and append-only: append and persist. -/
def addCommentDoc (p : Post) (userId content : String) : Post :=
  { p with comments := p.comments ++ [⟨userId, content⟩] }

/-- `POST /api/posts/:id/comments` — append a comment by the requester. -/
def addComment (dbFail : Bool) (db : DB) (u : User) (id : String) (content : String) :
    Resp Post × DB :=
  if dbFail then (serverErr _, db) else
  match findById Post.id db.posts id with
  | none => (⟨404, false, none, some "Post not found", none, none, none⟩, db)
  | some p =>
    let p2 := addCommentDoc p u.id content
    (⟨200, true, some p2, none, none, none, none⟩,
     { db with posts := saveDoc Post.id db.posts p2 })

/-- The `searchPosts` query:
`$and: [ { isPublished: true }, { $or: [title, content, excerpt, tags] } ]`. -/
def searchPred (q : String) (p : Post) : Bool :=
  p.isPublished && matchesSearch q p

/-- `GET /api/posts/search` — 400 on a falsy `q`, otherwise the published
matches, newest first, paginated. -/
def searchPosts (dbFail : Bool) (db : DB) (q : Option String) (page limit : Nat) :
    Resp (List Post) :=
  if dbFail then serverErr _ else
  if !(truthy q) then
    ⟨400, false, none, some "Search query is required", none, none, none⟩
  else
    let s := q.getD ""
    let matching := db.posts.filter (searchPred s)
    let posts := paginate page limit (matching.insertionSort createdDesc)
    let total := db.posts.countP (searchPred s)
    ⟨200, true, some posts, none, none, none,
      some ⟨page, ceilPages total limit, total, limit, none, none, some s⟩⟩

/-- `GET /api/posts/my-posts` (the `getMyPosts` handler) — the requester's own
posts, drafts included, newest first, paginated. -/
def getMyPosts (dbFail : Bool) (db : DB) (u : User) (page limit : Nat) :
    Resp (List Post) :=
  if dbFail then serverErr _ else
  let mine := db.posts.filter (fun p => p.author == u.id)
  let posts := paginate page limit (mine.insertionSort createdDesc)
  let total := db.posts.countP (fun p => p.author == u.id)
  ⟨200, true, some posts, none, none, none,
    some ⟨page, ceilPages total limit, total, limit, none, none, none⟩⟩

/-! ### Validation middleware (`utils/validation.js`) and routing -/

/-- `handleValidationErrors`: with a non-empty validation error list it answers
400 with the per-field `errors` array; otherwise it calls `next()` (`none`). -/
def handleValidationErrors (errs : List FieldError) : Option (Resp Unit) :=
  if errs.isEmpty then none
  else some ⟨400, false, none, none, some errs, none, none⟩

/-- The handlers a `GET` under `/api/posts` can reach. -/
inductive PostsGetTarget where
  | allPosts
  | search
  | byId (id : String)
  | myPosts
  deriving Repr, DecidableEq

/-- Which handler Express dispatches a `GET /api/posts/...` request to, by the
path segments after `/api/posts`. Routes match in registration order
(`server/routes/posts.js`): `'/'`, then `'/search'`, then `'/:id'`, then
`'/my-posts'` — the `'/:id'` pattern therefore captures every remaining single
segment, `"my-posts"` included, and the `myPosts` target is unreachable. -/
def dispatchPostsGet (segs : List String) : Option PostsGetTarget :=
  match segs with
  | [] => some PostsGetTarget.allPosts
  | [s] => if s == "search" then some PostsGetTarget.search else some (PostsGetTarget.byId s)
  | _ => none

/-! ### Sample documents for concrete evaluations -/

/-- A published post by user `u1`, tagged and slugged. -/
def samplePostA : Post :=
  ⟨"aaaaaaaaaaaaaaaaaaaaaaaa", "Hello World", "Some long content about proofs",
   "An excerpt", "hello-world", ["lean", "verification"], "u1", "c1", true, 5, 30,
   "img.jpg", []⟩

/-- An unpublished draft by user `u2`. -/
def samplePostB : Post :=
  ⟨"bbbbbbbbbbbbbbbbbbbbbbbb", "Draft note", "draft body text", "", "draft-note",
   ["misc"], "u2", "c1", false, 0, 20, "img.jpg", []⟩

/-- A second published post, by user `u2`, in category `c2`. -/
def samplePostC : Post :=
  ⟨"cccccccccccccccccccccccc", "Other post", "other content", "", "other-post",
   [], "u2", "c2", true, 1, 10, "img.jpg", []⟩

/-- An active category referenced by posts. -/
def sampleCatActive : Category := ⟨"c1", "Tech", "", "#ffffff", "i", "tech", true⟩

/-- An inactive category. -/
def sampleCatInactive : Category := ⟨"c2", "Old", "", "#000000", "i", "old", false⟩

/-- An active category no post references. -/
def sampleCatEmpty : Category := ⟨"c3", "Empty", "", "#123456", "i", "empty", true⟩

/-- A small store with three posts and three categories. -/
def sampleDB : DB :=
  ⟨[samplePostA, samplePostB, samplePostC],
   [sampleCatActive, sampleCatInactive, sampleCatEmpty]⟩

/-- The author of `samplePostA`. -/
def sampleAuthor : User := ⟨"u1", "user"⟩

/-- A plain user who authored none of the sample posts. -/
def sampleIntruder : User := ⟨"u3", "user"⟩

/-- An admin who authored none of the sample posts. -/
def sampleAdmin : User := ⟨"u9", "admin"⟩

/-- An update body touching nothing. -/
def noPostUpdate : UpdatePostBody := ⟨none, none, none, none, none, none⟩

/-- A post whose slug is itself a 24-hex-character string. -/
def hexSlugPost : Post :=
  ⟨"dddddddddddddddddddddddd", "Hex slug", "content body", "",
   "eeeeeeeeeeeeeeeeeeeeeeee", [], "u1", "c1", true, 0, 5, "img.jpg", []⟩

/-- A category whose slug is itself a 24-hex-character string. -/
def hexSlugCat : Category :=
  ⟨"999999999999999999999999", "N", "", "", "", "ffffffffffffffffffffffff", true⟩

/-- A store where the only routes to `hexSlugPost`/`hexSlugCat` are their
hex-shaped slugs. -/
def hexSlugDB : DB := ⟨[hexSlugPost], [hexSlugCat]⟩

/-! ### Helper lemmas -/

theorem lexLe_total : ∀ as bs : List Char, lexLe as bs = true ∨ lexLe bs as = true
  | [], _ => Or.inl rfl
  | _ :: _, [] => Or.inr rfl
  | a :: as, b :: bs => by
    rcases lt_trichotomy a b with h | h | h
    · left; simp [lexLe, h]
    · subst h
      have := lexLe_total as bs
      simpa [lexLe, lt_irrefl] using this
    · right; simp [lexLe, h]

theorem lexLe_cons {a b : Char} {as bs : List Char} :
    lexLe (a :: as) (b :: bs) = true ↔ a < b ∨ (a = b ∧ lexLe as bs = true) := by
  by_cases hab : a < b
  · simp [lexLe, hab]
  · by_cases hba : b < a
    · simp only [lexLe, if_neg hab, if_pos hba]
      constructor
      · intro h; cases h
      · rintro (h | ⟨rfl, h⟩)
        · exact absurd h hab
        · exact absurd hba (lt_irrefl a)
    · have heq : a = b := le_antisymm (not_lt.mp hba) (not_lt.mp hab)
      subst heq
      simp [lexLe, lt_irrefl]

theorem lexLe_trans : ∀ as bs cs : List Char,
    lexLe as bs = true → lexLe bs cs = true → lexLe as cs = true
  | [], _, _, _, _ => rfl
  | _ :: _, [], _, h1, _ => by simp [lexLe] at h1
  | _ :: _, _ :: _, [], _, h2 => by simp [lexLe] at h2
  | a :: as, b :: bs, c :: cs, h1, h2 => by
    rw [lexLe_cons] at h1 h2 ⊢
    rcases h1 with h1 | ⟨rfl, h1⟩
    · rcases h2 with h2 | ⟨rfl, h2⟩
      · exact Or.inl (lt_trans h1 h2)
      · exact Or.inl h1
    · rcases h2 with h2 | ⟨rfl, h2⟩
      · exact Or.inl h2
      · exact Or.inr ⟨rfl, lexLe_trans as bs cs h1 h2⟩

instance : IsTotal Category nameAsc :=
  ⟨fun c d => lexLe_total c.name.data d.name.data⟩

instance : IsTrans Category nameAsc :=
  ⟨fun _ _ _ h1 h2 => lexLe_trans _ _ _ h1 h2⟩

theorem paginate_eq_nil {xs : List α} (page limit : Nat)
    (h : xs.length ≤ (page - 1) * limit) : paginate page limit xs = [] := by
  unfold paginate
  rw [List.drop_eq_nil_of_le h, List.take_nil]

theorem paginate_first_page {xs : List α} (limit : Nat) (h : xs.length ≤ limit) :
    paginate 1 limit xs = xs := by
  unfold paginate
  simp [List.take_of_length_le h]

theorem total_le_ceilPages_mul (total limit : Nat) (h : 0 < limit) :
    total ≤ ceilPages total limit * limit := by
  unfold ceilPages
  have hd := Nat.div_add_mod (total + limit - 1) limit
  have hm : (total + limit - 1) % limit < limit := Nat.mod_lt _ h
  generalize hq : (total + limit - 1) / limit = q at hd ⊢
  generalize hr : (total + limit - 1) % limit = r at hd hm
  have h2 : q * limit = limit * q := Nat.mul_comm q limit
  rw [h2]
  generalize limit * q = k at hd ⊢
  omega

theorem length_sortPosts (sb : String) (asc : Bool) (ps : List Post) :
    (sortPosts sb asc ps).length = ps.length := by
  unfold sortPosts
  repeat' split
  all_goals simp [List.length_insertionSort]

/-! ### Claim theorems -/

/-- C1: for every post update or delete request on an existing post, a
requester who is neither the post's author nor an admin gets a 403 with
`success = false` and the store is unchanged; the author or an admin passes
the authorization check (the response is never the 403). -/
theorem C1_mutation_requires_author_or_admin (db : DB) (u : User) (id : String)
    (b : UpdatePostBody) (file : Option String) (p : Post)
    (hfind : findById Post.id db.posts id = some p) :
    ((p.author ≠ u.id ∧ u.role ≠ "admin") →
      (updatePost false db u id b file).1.status = 403 ∧
      (updatePost false db u id b file).1.success = false ∧
      (updatePost false db u id b file).2 = db ∧
      (deletePost false db u id).1.status = 403 ∧
      (deletePost false db u id).1.success = false ∧
      (deletePost false db u id).2 = db) ∧
    ((p.author = u.id ∨ u.role = "admin") →
      (updatePost false db u id b file).1.status ≠ 403 ∧
      (deletePost false db u id).1.status ≠ 403) := by
  constructor
  · rintro ⟨h1, h2⟩
    have e1 : (p.author == u.id) = false := beq_eq_false_iff_ne.mpr h1
    have e2 : (u.role == "admin") = false := beq_eq_false_iff_ne.mpr h2
    simp [updatePost, deletePost, hfind, e1, e2]
  · rintro (h | h)
    · have e1 : (p.author == u.id) = true := beq_iff_eq.mpr h
      simp [updatePost, deletePost, hfind, e1]
    · have e2 : (u.role == "admin") = true := beq_iff_eq.mpr h
      simp [updatePost, deletePost, hfind, e2]

/-- C1 witness: `u3` can neither update nor delete `samplePostA` (403, store
unchanged), while the author `u1` and an admin pass the check. -/
theorem C1_witness :
    (updatePost false sampleDB sampleIntruder "aaaaaaaaaaaaaaaaaaaaaaaa"
        noPostUpdate none).1.status = 403 ∧
    (updatePost false sampleDB sampleIntruder "aaaaaaaaaaaaaaaaaaaaaaaa"
        noPostUpdate none).2 = sampleDB ∧
    (deletePost false sampleDB sampleIntruder "aaaaaaaaaaaaaaaaaaaaaaaa").1.status = 403 ∧
    (updatePost false sampleDB sampleAuthor "aaaaaaaaaaaaaaaaaaaaaaaa"
        noPostUpdate none).1.status ≠ 403 ∧
    (deletePost false sampleDB sampleAdmin "aaaaaaaaaaaaaaaaaaaaaaaa").1.status ≠ 403 := by
  have h1 := C1_mutation_requires_author_or_admin sampleDB sampleIntruder
    "aaaaaaaaaaaaaaaaaaaaaaaa" noPostUpdate none samplePostA (by decide)
  have h2 := C1_mutation_requires_author_or_admin sampleDB sampleAuthor
    "aaaaaaaaaaaaaaaaaaaaaaaa" noPostUpdate none samplePostA (by decide)
  have h3 := C1_mutation_requires_author_or_admin sampleDB sampleAdmin
    "aaaaaaaaaaaaaaaaaaaaaaaa" noPostUpdate none samplePostA (by decide)
  have ha := h1.1 (by decide)
  exact ⟨ha.1, ha.2.2.1, ha.2.2.2.1,
    (h2.2 (Or.inl (by decide))).1, (h3.2 (Or.inr (by decide))).2⟩

/-- C9: a 24-hex lookup key is treated as an ObjectId — `getPost` and
`getCategory` then query by `_id` only and never by slug, so a document whose
slug is itself a 24-hex string can never be retrieved through that slug. -/
theorem C9_hex_key_queries_id_only (db : DB) (key : String)
    (hhex : isObjectId key = true) :
    findByIdOrSlug Post.id Post.slug db.posts key
      = db.posts.find? (fun p => p.id == key) ∧
    findByIdOrSlug Category.id Category.slug db.categories key
      = db.categories.find? (fun c => c.id == key) ∧
    ((∀ p ∈ db.posts, p.id ≠ key) → (getPost false db key).1.status = 404) ∧
    ((∀ c ∈ db.categories, c.id ≠ key) → (getCategory false db key).status = 404) := by
  have hfp : findByIdOrSlug Post.id Post.slug db.posts key
      = db.posts.find? (fun p => p.id == key) := by
    simp [findByIdOrSlug, hhex]
  have hfc : findByIdOrSlug Category.id Category.slug db.categories key
      = db.categories.find? (fun c => c.id == key) := by
    simp [findByIdOrSlug, hhex]
  refine ⟨hfp, hfc, ?_, ?_⟩
  · intro hno
    have hnone : db.posts.find? (fun p => p.id == key) = none := by
      rw [List.find?_eq_none]
      intro p hp
      simpa using hno p hp
    simp [getPost, hfp, hnone]
  · intro hno
    have hnone : db.categories.find? (fun c => c.id == key) = none := by
      rw [List.find?_eq_none]
      intro c hc
      simpa using hno c hc
    simp [getCategory, hfc, hnone]

/-- C9 witness: `hexSlugPost` carries the 24-hex slug `"eee…e"` and is in the
store, yet looking that slug up answers 404; likewise for `hexSlugCat`. -/
theorem C9_witness :
    isObjectId "eeeeeeeeeeeeeeeeeeeeeeee" = true ∧
    hexSlugPost.slug = "eeeeeeeeeeeeeeeeeeeeeeee" ∧
    hexSlugPost ∈ hexSlugDB.posts ∧
    (getPost false hexSlugDB "eeeeeeeeeeeeeeeeeeeeeeee").1.status = 404 ∧
    (getCategory false hexSlugDB "ffffffffffffffffffffffff").status = 404 := by
  refine ⟨by decide, by decide, by decide, ?_, ?_⟩
  · exact (C9_hex_key_queries_id_only hexSlugDB "eeeeeeeeeeeeeeeeeeeeeeee"
      (by decide)).2.2.1 (by decide)
  · exact (C9_hex_key_queries_id_only hexSlugDB "ffffffffffffffffffffffff"
      (by decide)).2.2.2 (by decide)

/-- C10: `getAllCategories` returns exactly the categories whose `isActive`
flag is true, sorted by name ascending; an inactive category never appears. -/
theorem C10_active_categories_sorted_by_name (db : DB) :
    (∀ c ∈ (getAllCategories false db).data.getD [], c.isActive = true) ∧
    List.Sorted nameAsc ((getAllCategories false db).data.getD []) ∧
    (∀ c, c ∈ (getAllCategories false db).data.getD [] ↔
      c ∈ db.categories ∧ c.isActive = true) := by
  have hdata : (getAllCategories false db).data
      = some ((db.categories.filter (fun c => c.isActive)).insertionSort nameAsc) := rfl
  rw [hdata]
  simp only [Option.getD_some]
  have hperm := List.perm_insertionSort nameAsc (db.categories.filter (fun c => c.isActive))
  refine ⟨?_, ?_, ?_⟩
  · intro c hc
    exact (List.mem_filter.mp (hperm.mem_iff.mp hc)).2
  · exact List.sorted_insertionSort nameAsc _
  · intro c
    rw [hperm.mem_iff, List.mem_filter]

/-- C10 witness: on `sampleDB` the handler lists the two active categories in
name order and omits the inactive one — which by the main theorem can never
appear. -/
theorem C10_witness :
    (getAllCategories false sampleDB).data.getD [] = [sampleCatEmpty, sampleCatActive] ∧
    sampleCatInactive ∉ (getAllCategories false sampleDB).data.getD [] := by
  refine ⟨by decide, fun hmem => ?_⟩
  have := (C10_active_categories_sorted_by_name sampleDB).1 _ hmem
  exact absurd this (by decide)

theorem find?_saveDoc_self {α : Type} {getId : α → String} {doc : α} :
    ∀ {docs : List α} {d : α}, d ∈ docs → getId d = getId doc →
      (saveDoc getId docs doc).find? (fun x => getId x == getId doc) = some doc := by
  intro docs
  induction docs with
  | nil => intro d h; cases h
  | cons a as ih =>
    intro d hmem hid
    by_cases ha : (getId a == getId doc) = true
    · show List.find? _ ((if getId a == getId doc then doc else a) :: _) = _
      rw [if_pos ha, List.find?_cons_of_pos _ (by simp)]
    · show List.find? (fun x => getId x == getId doc)
        ((if getId a == getId doc then doc else a) :: saveDoc getId as doc) = some doc
      rw [if_neg ha,
        @List.find?_cons_of_neg _ (fun x => getId x == getId doc) a (saveDoc getId as doc) ha]
      rcases List.mem_cons.mp hmem with rfl | hmem2
      · exact absurd (beq_iff_eq.mpr hid) ha
      · exact ih hmem2 hid

theorem mem_saveDoc_of_ne {α : Type} {getId : α → String} {docs : List α} {doc q : α}
    (hq : q ∈ docs) (hne : getId q ≠ getId doc) : q ∈ saveDoc getId docs doc := by
  unfold saveDoc
  have himg := List.mem_map_of_mem (fun d => if getId d == getId doc then doc else d) hq
  simpa [beq_eq_false_iff_ne.mpr hne] using himg

/-- C3: reading an existing published post through `getPost` bumps exactly
that post's stored view count by one — the handler consults no reader
identity at all — and leaves every other post untouched; reading an
unpublished post leaves the store unchanged. -/
theorem C3_view_count_increment (db : DB) (id : String) (p : Post)
    (hfind : findByIdOrSlug Post.id Post.slug db.posts id = some p) :
    (p.isPublished = true →
      ((getPost false db id).2.posts.find? (fun q => q.id == p.id)).map Post.viewCount
        = some (p.viewCount + 1) ∧
      (∀ q ∈ db.posts, q.id ≠ p.id → q ∈ (getPost false db id).2.posts)) ∧
    (p.isPublished = false → (getPost false db id).2 = db) := by
  constructor
  · intro hpub
    have hstate : (getPost false db id).2
        = { db with posts := saveDoc Post.id db.posts (incrementViewCount p) } := by
      simp [getPost, hfind, hpub]
    have hmem : p ∈ db.posts := by
      unfold findByIdOrSlug at hfind
      split at hfind
      · exact List.mem_of_find?_eq_some hfind
      · exact List.mem_of_find?_eq_some hfind
    rw [hstate]
    constructor
    · have hfd2 : (saveDoc Post.id db.posts (incrementViewCount p)).find?
          (fun q => q.id == p.id) = some (incrementViewCount p) :=
        @find?_saveDoc_self Post Post.id (incrementViewCount p) db.posts p hmem rfl
      show ((saveDoc Post.id db.posts (incrementViewCount p)).find?
          (fun q => q.id == p.id)).map Post.viewCount = some (p.viewCount + 1)
      rw [hfd2]
      rfl
    · intro q hq hne
      exact mem_saveDoc_of_ne hq hne
  · intro hunpub
    simp [getPost, hfind, hunpub]

/-- C3 witness: reading the published `samplePostA` by its slug stores view
count 6 (was 5); reading the draft `samplePostB` changes nothing. -/
theorem C3_witness :
    ((getPost false sampleDB "hello-world").2.posts.find?
        (fun q => q.id == "aaaaaaaaaaaaaaaaaaaaaaaa")).map Post.viewCount = some 6 ∧
    (getPost false sampleDB "draft-note").2 = sampleDB := by
  have h := C3_view_count_increment sampleDB "hello-world" samplePostA (by decide)
  have h2 := C3_view_count_increment sampleDB "draft-note" samplePostB (by decide)
  exact ⟨(h.1 (by decide)).1, h2.2 (by decide)⟩

/-- C4: deleting an existing category that at least one post references is
rejected — 400, `success=false`, the store unchanged and the category still
present; deleting an existing category that no post references succeeds and
removes exactly that category. -/
theorem C4_delete_category_blocked_by_posts (db : DB) (id : String) (c : Category)
    (hfind : findById Category.id db.categories id = some c) :
    (0 < db.posts.countP (fun p => p.category == id) →
      (deleteCategory false db id).1.status = 400 ∧
      (deleteCategory false db id).1.success = false ∧
      (deleteCategory false db id).2 = db ∧
      c ∈ (deleteCategory false db id).2.categories) ∧
    (db.posts.countP (fun p => p.category == id) = 0 →
      (deleteCategory false db id).1.success = true ∧
      c ∉ (deleteCategory false db id).2.categories ∧
      (∀ d ∈ db.categories, d.id ≠ id → d ∈ (deleteCategory false db id).2.categories) ∧
      (∀ d ∈ (deleteCategory false db id).2.categories, d ∈ db.categories)) := by
  have hcid : c.id = id := by
    have := List.find?_some hfind
    simpa using this
  have hmem := List.mem_of_find?_eq_some hfind
  constructor
  · intro hpos
    refine ⟨?_, ?_, ?_, ?_⟩ <;> simp [deleteCategory, hfind, hpos, hmem]
  · intro hzero
    have hres : (deleteCategory false db id).2.categories
        = removeById Category.id db.categories id := by
      simp [deleteCategory, hfind, hzero]
    refine ⟨?_, ?_, ?_, ?_⟩
    · simp [deleteCategory, hfind, hzero]
    · rw [hres]
      intro hc
      have := (List.mem_filter.mp hc).2
      simp [hcid] at this
    · intro d hd hne
      rw [hres]
      exact List.mem_filter.mpr ⟨hd, by simp [hne]⟩
    · intro d hd
      rw [hres] at hd
      exact (List.mem_filter.mp hd).1

/-- C4 witness: `c1` has referencing posts and survives its delete request
(400); `c3` has none and is removed. -/
theorem C4_witness :
    (deleteCategory false sampleDB "c1").1.status = 400 ∧
    (deleteCategory false sampleDB "c1").2 = sampleDB ∧
    (deleteCategory false sampleDB "c3").1.success = true ∧
    sampleCatEmpty ∉ (deleteCategory false sampleDB "c3").2.categories := by
  have h1 := C4_delete_category_blocked_by_posts sampleDB "c1" sampleCatActive (by decide)
  have h3 := C4_delete_category_blocked_by_posts sampleDB "c3" sampleCatEmpty (by decide)
  have ha := h1.1 (by decide)
  have hb := h3.2 (by decide)
  exact ⟨ha.1, ha.2.2.1, hb.1, hb.2.1⟩

/-- C5: requesting a post-list page beyond `totalPages` (with `limit ≥ 1`)
yields an empty post list and `pagination.hasNextPage = false`. -/
theorem C5_page_beyond_totalPages (db : DB) (page limit : Nat)
    (category author search : Option String) (sb : String) (asc : Bool)
    (hl : 0 < limit)
    (hp : ceilPages (db.posts.countP (listPred category author search)) limit < page) :
    (getAllPosts false db page limit category author search sb asc).data = some [] ∧
    (getAllPosts false db page limit category author search sb asc).pagination.map
      Pagination.hasNextPage = some (some false) := by
  have hle : (sortPosts sb asc (db.posts.filter (listPred category author search))).length
      ≤ (page - 1) * limit := by
    rw [length_sortPosts]
    calc (db.posts.filter (listPred category author search)).length
        = db.posts.countP (listPred category author search) :=
          (List.countP_eq_length_filter _ _).symm
      _ ≤ ceilPages (db.posts.countP (listPred category author search)) limit * limit :=
          total_le_ceilPages_mul _ _ hl
      _ ≤ (page - 1) * limit := Nat.mul_le_mul_right _ (by omega)
  have hnil : paginate page limit
      (sortPosts sb asc (db.posts.filter (listPred category author search))) = [] :=
    paginate_eq_nil page limit hle
  have hnext : (decide (page < ceilPages
      (db.posts.countP (listPred category author search)) limit)) = false :=
    decide_eq_false (by omega)
  refine ⟨?_, ?_⟩ <;> simp [getAllPosts, hnil, hnext]

/-- C5 witness: `sampleDB` has two published posts, one page of ten; page 5 of
the unfiltered list is empty with `hasNextPage = false`. -/
theorem C5_witness :
    ceilPages (sampleDB.posts.countP (listPred none none none)) 10 < 5 ∧
    (getAllPosts false sampleDB 5 10 none none none "createdAt" false).data = some [] ∧
    (getAllPosts false sampleDB 5 10 none none none "createdAt" false).pagination.map
      Pagination.hasNextPage = some (some false) := by
  have h := C5_page_beyond_totalPages sampleDB 5 10 none none none "createdAt" false
    (by decide) (by decide)
  exact ⟨by decide, h.1, h.2⟩

/-- C6: a falsy search query (absent or empty) is rejected with a 400
`success=false` response carrying no posts; a non-empty query that matches no
post's title, content or excerpt selects exactly the published posts with a
case-insensitively matching tag. -/
theorem C6_search_by_tag_and_empty_query (db : DB) (q : Option String) (s : String)
    (page limit : Nat) :
    (truthy q = false →
      (searchPosts false db q page limit).status = 400 ∧
      (searchPosts false db q page limit).success = false ∧
      (searchPosts false db q page limit).data = none) ∧
    (q = some s → s ≠ "" →
      (∀ p ∈ db.posts, ciMatch s p.title = false ∧ ciMatch s p.content = false ∧
        ciMatch s p.excerpt = false) →
      db.posts.countP (searchPred s) ≤ limit →
      ∀ p, p ∈ (searchPosts false db q 1 limit).data.getD [] ↔
        (p ∈ db.posts ∧ p.isPublished = true ∧
          p.tags.any (fun t => ciMatch s t) = true)) := by
  constructor
  · intro hfalsy
    refine ⟨?_, ?_, ?_⟩ <;> simp [searchPosts, hfalsy]
  · rintro rfl hs hno hcount p
    have ht : truthy (some s) = true := by simp [truthy, hs]
    have hlen : ((db.posts.filter (searchPred s)).insertionSort createdDesc).length ≤ limit := by
      rw [List.length_insertionSort, ← List.countP_eq_length_filter]
      exact hcount
    have hdata : (searchPosts false db (some s) 1 limit).data
        = some (paginate 1 limit ((db.posts.filter (searchPred s)).insertionSort createdDesc)) := by
      simp [searchPosts, ht]
    rw [hdata, Option.getD_some, paginate_first_page limit hlen,
      (List.perm_insertionSort createdDesc _).mem_iff, List.mem_filter]
    constructor
    · rintro ⟨hmem, hpred⟩
      rcases hno p hmem with ⟨e1, e2, e3⟩
      simp [searchPred, matchesSearch, e1, e2, e3] at hpred
      exact ⟨hmem, hpred.1, List.any_eq_true.mpr hpred.2⟩
    · rintro ⟨hmem, hpub, htag⟩
      rcases hno p hmem with ⟨e1, e2, e3⟩
      refine ⟨hmem, ?_⟩
      simp [searchPred, matchesSearch, e1, e2, e3, hpub, htag]

/-- C6 witness: the empty and the absent query are both rejected with 400;
the query `"VERIF"` matches only the tag `"verification"` of `samplePostA`,
which is returned, while `samplePostC` is not. -/
theorem C6_witness :
    (searchPosts false sampleDB (some "") 1 10).status = 400 ∧
    (searchPosts false sampleDB none 1 10).status = 400 ∧
    samplePostA ∈ (searchPosts false sampleDB (some "VERIF") 1 10).data.getD [] ∧
    samplePostC ∉ (searchPosts false sampleDB (some "VERIF") 1 10).data.getD [] := by
  have he := C6_search_by_tag_and_empty_query sampleDB (some "") "" 1 10
  have hn := C6_search_by_tag_and_empty_query sampleDB none "" 1 10
  have hv := C6_search_by_tag_and_empty_query sampleDB (some "VERIF") "VERIF" 1 10
  have hm := hv.2 rfl (by decide) (by decide) (by decide)
  refine ⟨(he.1 (by decide)).1, (hn.1 (by decide)).1,
    (hm samplePostA).mpr ⟨by decide, by decide, by decide⟩, fun hc => ?_⟩
  exact absurd ((hm samplePostC).mp hc).2.2 (by decide)

/-- C7: for every non-empty search string and every page/limit, the search
endpoint and the list endpoint with the same search text and no
category/author filter produce the same paginated post list (same posts, same
order); the shared selection is exactly the published posts whose title,
content, excerpt or some tag matches case-insensitively. -/
theorem C7_search_equals_filtered_list (db : DB) (s : String) (page limit : Nat)
    (hs : s ≠ "") :
    (searchPosts false db (some s) page limit).data
      = (getAllPosts false db page limit none none (some s) "createdAt" false).data ∧
    (∀ p, p ∈ db.posts.filter (searchPred s) ↔
      (p ∈ db.posts ∧ p.isPublished = true ∧
        (ciMatch s p.title = true ∨ ciMatch s p.content = true ∨
         ciMatch s p.excerpt = true ∨ p.tags.any (fun t => ciMatch s t) = true))) := by
  have hbe : (s == "") = false := beq_eq_false_iff_ne.mpr hs
  have ht : truthy (some s) = true := by simp [truthy, hs]
  have hpred : ∀ p ∈ db.posts, listPred none none (some s) p = searchPred s p := by
    intro p _
    simp [listPred, searchPred, hbe]
  have hfilter : db.posts.filter (listPred none none (some s))
      = db.posts.filter (searchPred s) := List.filter_congr hpred
  have hsp : ∀ ps : List Post, sortPosts "createdAt" false ps = ps.insertionSort createdDesc :=
    fun ps => rfl
  constructor
  · simp [searchPosts, getAllPosts, ht, hsp, hfilter]
  · intro p
    rw [List.mem_filter]
    simp only [searchPred, matchesSearch, Bool.and_eq_true, Bool.or_eq_true]
    tauto

/-- C7 witness: with the query `"content"` the two endpoints answer the same
post list on `sampleDB`. -/
theorem C7_witness :
    (searchPosts false sampleDB (some "content") 1 10).data
      = (getAllPosts false sampleDB 1 10 none none (some "content") "createdAt" false).data ∧
    (searchPosts false sampleDB (some "content") 1 10).data
      = some [samplePostA, samplePostC] := by
  exact ⟨(C7_search_equals_filtered_list sampleDB "content" 1 10 (by decide)).1, by decide⟩

/-- The uniform response envelope: an error response (status ≥ 400) has
`success = false` and carries an `error` string or a non-empty `errors`
array; a success response has `success = true`. -/
def goodEnvelope {α : Type} (r : Resp α) : Prop :=
  (400 ≤ r.status → r.success = false ∧
    (r.error.isSome = true ∨ ∃ es, r.errors = some es ∧ es ≠ [])) ∧
  (r.status < 400 → r.success = true)

/-- C8: every response of every post and category handler — validation
failure, not-found, forbidden, conflict, server error or success — respects
the envelope: error responses have `success=false` with an `error` string or
a non-empty `errors` array, success responses have `success=true`. -/
theorem C8_uniform_envelope (dbFail : Bool) (db : DB) (u : User)
    (id name description color icon content : String)
    (cb : CategoryUpdateBody) (pb : CreatePostBody) (ub : UpdatePostBody)
    (file : Option String) (newId : String) (now : Nat)
    (q category author search : Option String) (page limit : Nat)
    (sb : String) (asc : Bool) (errs : List FieldError) :
    goodEnvelope (getAllCategories dbFail db) ∧
    goodEnvelope (getCategory dbFail db id) ∧
    goodEnvelope (createCategory dbFail db name description color icon newId).1 ∧
    goodEnvelope (updateCategory dbFail db id cb).1 ∧
    goodEnvelope (deleteCategory dbFail db id).1 ∧
    goodEnvelope (getPostsByCategory dbFail db id page limit) ∧
    goodEnvelope (getAllPosts dbFail db page limit category author search sb asc) ∧
    goodEnvelope (getPost dbFail db id).1 ∧
    goodEnvelope (createPost dbFail db u pb file newId now).1 ∧
    goodEnvelope (updatePost dbFail db u id ub file).1 ∧
    goodEnvelope (deletePost dbFail db u id).1 ∧
    goodEnvelope (addComment dbFail db u id content).1 ∧
    goodEnvelope (searchPosts dbFail db q page limit) ∧
    goodEnvelope (getMyPosts dbFail db u page limit) ∧
    (∀ r, handleValidationErrors errs = some r → goodEnvelope r) := by
  refine ⟨?_, ?_, ?_, ?_, ?_, ?_, ?_, ?_, ?_, ?_, ?_, ?_, ?_, ?_, ?_⟩
  · simp only [goodEnvelope, getAllCategories]
    repeat' split
    all_goals simp [serverErr]
  · simp only [goodEnvelope, getCategory]
    repeat' split
    all_goals simp [serverErr]
  · simp only [goodEnvelope, createCategory]
    repeat' split
    all_goals simp [serverErr]
  · simp only [goodEnvelope, updateCategory]
    repeat' split
    all_goals simp [serverErr]
  · simp only [goodEnvelope, deleteCategory]
    repeat' split
    all_goals simp [serverErr]
  · simp only [goodEnvelope, getPostsByCategory]
    repeat' split
    all_goals simp [serverErr]
  · simp only [goodEnvelope, getAllPosts]
    repeat' split
    all_goals simp [serverErr]
  · simp only [goodEnvelope, getPost]
    repeat' split
    all_goals simp [serverErr]
  · simp only [goodEnvelope, createPost]
    repeat' split
    all_goals simp [serverErr]
  · simp only [goodEnvelope, updatePost]
    repeat' split
    all_goals simp [serverErr]
  · simp only [goodEnvelope, deletePost]
    repeat' split
    all_goals simp [serverErr]
  · simp only [goodEnvelope, addComment]
    repeat' split
    all_goals simp [serverErr]
  · simp only [goodEnvelope, searchPosts]
    repeat' split
    all_goals simp [serverErr]
  · simp only [goodEnvelope, getMyPosts]
    repeat' split
    all_goals simp [serverErr]
  · intro r hr
    simp only [handleValidationErrors] at hr
    split at hr
    · cases hr
    · rename_i hne
      cases hr
      constructor
      · intro _
        exact ⟨rfl, Or.inr ⟨errs, rfl, by simpa using hne⟩⟩
      · intro hlt
        simp at hlt

/-- C8 witness: a not-found category lookup answers 404 with `success=false`
and an error string; the category list answers with `success=true`. -/
theorem C8_witness :
    (getCategory false sampleDB "zzz").success = false ∧
    (getCategory false sampleDB "zzz").status = 404 ∧
    (getAllCategories false sampleDB).success = true := by
  have h := C8_uniform_envelope false sampleDB sampleAuthor "zzz" "n" "d" "c" "i" "txt"
    ⟨none, none, none, none, none⟩ ⟨"t", "c", none, "c1", none, none⟩ noPostUpdate
    none "nid" 0 none none none none 1 10 "createdAt" false []
  exact ⟨((h.2.1).1 (by decide)).1, by decide, h.1.2 (by decide)⟩

/-- C2 (code defect): the repository's README documents
`GET /api/posts/my-posts` as "Get user's posts", but `server/routes/posts.js`
registers `'/:id'` before `'/my-posts'`, so Express dispatches the request to
`getPost` with `id = "my-posts"`. With no post slugged `"my-posts"`, the
authenticated author of `samplePostA` gets a 404 and no post list, while the
unreachable `getMyPosts` handler would have returned exactly their posts. -/
theorem C2_my_posts_route_shadowed :
    dispatchPostsGet ["my-posts"] = some (PostsGetTarget.byId "my-posts") ∧
    dispatchPostsGet ["my-posts"] ≠ some PostsGetTarget.myPosts ∧
    (getPost false sampleDB "my-posts").1.status = 404 ∧
    (getPost false sampleDB "my-posts").1.success = false ∧
    (getPost false sampleDB "my-posts").1.data = none ∧
    (getMyPosts false sampleDB sampleAuthor 1 10).data = some [samplePostA] := by
  decide

end Blog
